import Mathlib

/-!
Verification of the Avalon-Tunnel core against its specification.

The Python source is shallowly embedded: each relevant function of the
repository is translated into an executable Lean definition, and the
specified properties are proved (or refuted) about those definitions.

Conventions used throughout the embedding:
* Python dicts that carry user rows are translated into structures whose
  fields keep the source key names.
* SQLite integers stay integers; Python truthiness tests on them compare
  against 0, exactly as the source tests do.
* Byte strings are lists of naturals; file contents are such lists.
* Literal brace characters inside rendered configuration text are written
  with hexadecimal escapes.
-/

namespace AvalonTunnel

/-! ## Data model: user rows as carried between the database and the
configuration synthesizer (Python dicts produced by Database.get_all_users
and consumed by ConfigService). -/

/-- A user row as the configuration synthesizer receives it.  The fields
mirror the dict keys the source accesses: uuid, email, level (read through
dict get with default 0), enabled (read through dict get with default 1),
and secret_path (read through dict get, so possibly absent). -/
structure UserDict where
  uuid : String
  email : String
  level : Nat := 0
  enabled : Nat := 1
  secret_path : Option String := none
deriving DecidableEq, Repr

/-- Python truthiness of a possibly-absent secret_path value: absent and
the empty string are falsy, any other string is truthy.  This is the test
performed by the source conditionals on user secret_path. -/
def truthy : Option String → Bool
  | none => false
  | some s => !(s == "")

/-- A user passes both loop guards of the synthesizer (enabled and with a
truthy secret_path); such users receive a listener and a route. -/
def isKept (u : UserDict) : Bool :=
  (u.enabled != 0) && truthy u.secret_path

/-! ## ConfigService.generate_v2ray_config -/

/-- One entry of the clients array of a vless inbound. -/
structure VlessClient where
  id : String
  level : Nat
  email : String
deriving DecidableEq, Repr

/-- One inbound of the generated V2Ray configuration.  The nested JSON
object is flattened: settings.clients, settings.decryption,
streamSettings.network and streamSettings.wsSettings.path become fields. -/
structure Inbound where
  port : Nat
  protocol : String
  clients : List VlessClient
  decryption : String
  network : String
  wsPath : String
  tag : String
deriving DecidableEq, Repr

/-- The inbound built for one kept user at a given port, exactly the dict
appended by generate_v2ray_config: protocol vless, a single client whose
id is the user uuid, path "/" followed by the user secret_path, and tag
"inbound-" followed by the user email. -/
def mkInbound (port : Nat) (u : UserDict) : Inbound :=
  { port := port
    protocol := "vless"
    clients := [{ id := u.uuid, level := u.level, email := u.email }]
    decryption := "none"
    network := "ws"
    wsPath := "/" ++ u.secret_path.getD ""
    tag := "inbound-" ++ u.email }

/-- The inbound-building loop of generate_v2ray_config.  It walks the user
list threading the next free port (v2ray_port_base plus port_offset in the
source); a user failing the enabled test is skipped silently, an enabled
user with a falsy secret_path is skipped and its email is recorded as a
warning (the source prints the warning), and every other user yields one
inbound after which the port counter advances. -/
def v2rayInbounds (port : Nat) : List UserDict → List Inbound × List String
  | [] => ([], [])
  | u :: rest =>
    if u.enabled == 0 then
      v2rayInbounds port rest
    else if truthy u.secret_path then
      let r := v2rayInbounds (port + 1) rest
      (mkInbound port u :: r.1, r.2)
    else
      let r := v2rayInbounds port rest
      (r.1, u.email :: r.2)

/-- The log section of the generated V2Ray configuration. -/
structure V2rayLog where
  loglevel : String
  access : String
  errorLog : String
deriving DecidableEq, Repr

/-- One outbound of the generated V2Ray configuration; settings carry at
most a domainStrategy. -/
structure Outbound where
  protocol : String
  settingsDomainStrategy : Option String
  tag : String
deriving DecidableEq, Repr

/-- One routing rule of the generated V2Ray configuration. -/
structure RoutingRule where
  ruleType : String
  ip : List String
  outboundTag : String
deriving DecidableEq, Repr

/-- The routing section of the generated V2Ray configuration. -/
structure Routing where
  domainStrategy : String
  rules : List RoutingRule
deriving DecidableEq, Repr

/-- The whole generated V2Ray configuration document (flattened JSON). -/
structure V2rayConfig where
  logCfg : V2rayLog
  dns : List String
  inbounds : List Inbound
  outbounds : List Outbound
  routing : Routing
deriving DecidableEq, Repr

/-- The constant dns server list of the generated configuration. -/
def v2rayDnsServers : List String :=
  ["localhost", "2606:4700:4700::64", "2606:4700:4700::6400",
   "2606:4700:4700::1111", "2606:4700:4700::1001"]

/-- The constant list of private and reserved address ranges routed to the
blackhole outbound. -/
def blockedIpRanges : List String :=
  ["0.0.0.0/8", "10.0.0.0/8", "100.64.0.0/10", "127.0.0.0/8",
   "169.254.0.0/16", "172.16.0.0/12", "192.0.0.0/24", "192.0.2.0/24",
   "192.168.0.0/16", "198.18.0.0/15", "198.51.100.0/24", "203.0.113.0/24",
   "::1/128", "fc00::/7", "fe80::/10"]

/-- ConfigService.generate_v2ray_config: builds the per-user inbounds and
wraps them in the fixed log, dns, outbound and routing sections. -/
def generate_v2ray_config (users : List UserDict)
    (v2ray_port_base : Nat := 10000) : V2rayConfig :=
  { logCfg := { loglevel := "warning", access := "/var/log/v2ray/access.log",
                errorLog := "/var/log/v2ray/error.log" }
    dns := v2rayDnsServers
    inbounds := (v2rayInbounds v2ray_port_base users).1
    outbounds :=
      [{ protocol := "freedom", settingsDomainStrategy := some "UseIP",
         tag := "direct" },
       { protocol := "blackhole", settingsDomainStrategy := none,
         tag := "blocked" }]
    routing := { domainStrategy := "IPIfNonMatch",
                 rules := [{ ruleType := "field", ip := blockedIpRanges,
                             outboundTag := "blocked" }] } }

/-! ## ConfigService.generate_caddyfile -/

/-- An apostrophe character, built numerically so rendered text can contain
it. -/
def apos : String := (Char.ofNat 39).toString

/-- The optional tls block inserted when the staging environment is
requested (ACME_STAGING). -/
def tlsStagingText : String :=
  "\n    # 使用 Let" ++ apos ++ "s Encrypt Staging 环境（测试用，避免频率限制）\n    tls \x7b\n        ca https://acme-staging-v02.api.letsencrypt.org/directory\n    \x7d\n"

/-- The handle block rendered for one kept user at its assigned port: the
text produced by one iteration of the user loop of generate_caddyfile
(comment lines with email, uuid and port, then a handle directive on the
user secret path reverse-proxying to the per-user V2Ray port). -/
def handleText (port : Nat) (u : UserDict) : String :=
  "\n    # 用户: " ++ u.email ++ " (" ++ u.uuid ++ ")\n    # V2Ray 端口: "
    ++ toString port
    ++ "\n    handle /" ++ u.secret_path.getD "" ++ " \x7b\n        reverse_proxy 127.0.0.1:"
    ++ toString port
    ++ " \x7b\n            header_up Host \x7bhost\x7d\n            header_up X-Real-IP \x7bremote\x7d\n            header_up X-Forwarded-For \x7bremote\x7d\n            header_up User-Agent \x7bhttp.request.header.User-Agent\x7d\n            header_up Upgrade \x7bhttp.request.header.Upgrade\x7d\n            header_up Connection \x7bhttp.request.header.Connection\x7d\n        \x7d\n    \x7d\n"

/-- The user loop of generate_caddyfile: a user that is disabled or has a
falsy secret_path is skipped, every other user contributes one handle
block and advances the port counter (v2ray_port plus port_offset in the
source). -/
def caddyHandles (port : Nat) : List UserDict → List String
  | [] => []
  | u :: rest =>
    if u.enabled == 0 || !truthy u.secret_path then
      caddyHandles port rest
    else
      handleText port u :: caddyHandles (port + 1) rest

/-- The kept users of a list paired with their assigned ports, threading
the port counter exactly as both synthesizer loops do.  Both the inbound
list and the handle list are pointwise images of this list (proved
below). -/
def keptWithPorts (port : Nat) : List UserDict → List (Nat × UserDict)
  | [] => []
  | u :: rest =>
    if isKept u then
      (port, u) :: keptWithPorts (port + 1) rest
    else
      keptWithPorts port rest

/-- The constant leading text of the rendered Caddyfile, up to the domain
name. -/
def caddyHeader : String :=
  "# Avalon Tunnel - Caddy Configuration\n# 自动 TLS 证书申请和反向代理配置\n# Phase 2: 多用户多路径支持 + API 反向代理\n\n"

/-- The constant trailing text of the rendered Caddyfile: the fixed api,
docs and catch-all routes, the hardening header block and the structured
log block. -/
def caddyTail : String :=
  "    # API 管理接口 - 反向代理到本地 8000 端口\n    handle /api/* \x7b\n        reverse_proxy 127.0.0.1:8000\n    \x7d\n    \n    # API 文档 - Swagger UI\n    handle /docs \x7b\n        reverse_proxy 127.0.0.1:8000\n    \x7d\n    \n    # API 文档 - ReDoc\n    handle /redoc \x7b\n        reverse_proxy 127.0.0.1:8000\n    \x7d\n    \n    # API OpenAPI JSON\n    handle /openapi.json \x7b\n        reverse_proxy 127.0.0.1:8000\n    \x7d\n    \n    # 根路径和所有其他路径 - 伪装网站（动态流量生成）\n    handle /* \x7b\n        reverse_proxy 127.0.0.1:8000\n    \x7d\n\n    # 安全头设置\n    header \x7b\n        # 隐藏服务器信息\n        -Server\n        Server \"nginx/1.18.0\"\n        \n        # 安全头\n        X-Content-Type-Options \"nosniff\"\n        X-Frame-Options \"DENY\"\n        X-XSS-Protection \"1; mode=block\"\n        Strict-Transport-Security \"max-age=31536000; includeSubDomains\"\n        \n        # 防止缓存敏感路径\n        Cache-Control \"no-cache, no-store, must-revalidate\"\n    \x7d\n\n    # 日志配置（JSON 格式，包含 User-Agent 和 IP）\n    log \x7b\n        output file /var/log/caddy/access.log \x7b\n            roll_size 100mb\n            roll_keep 5\n        \x7d\n        format json\n    \x7d\n\x7d\n"

/-- ConfigService.generate_caddyfile: the full rendered routing table
document, assembled from the header, the domain, the optional staging tls
block, the per-user handle blocks and the constant tail. -/
def generate_caddyfile (domain : String) (users : List UserDict)
    (v2ray_port : Nat := 10000) (use_staging : Bool := false) : String :=
  let tls_config := if use_staging then tlsStagingText else ""
  let user_handles := String.join (caddyHandles v2ray_port users)
  caddyHeader ++ domain ++ " \x7b" ++ tls_config ++ "\n" ++ user_handles
    ++ "\n" ++ caddyTail

/-! ## Rendering the V2Ray configuration document.

The source writes the configuration with json.dump, a fixed deterministic
rendering of the dict; the renderer below is the corresponding fixed
deterministic rendering of the embedded structure (it emits compact JSON;
the pretty-printing indent of json.dump is elided, which cannot affect
equality or inequality of the rendered documents). -/

/-- A JSON string literal. -/
def jstr (s : String) : String := "\"" ++ s ++ "\""

/-- A JSON array out of rendered elements. -/
def jarr (xs : List String) : String :=
  "[" ++ String.intercalate ", " xs ++ "]"

/-- A JSON object out of rendered fields. -/
def jobj (fields : List (String × String)) : String :=
  "\x7b" ++ String.intercalate ", " (fields.map fun f => jstr f.1 ++ ": " ++ f.2) ++ "\x7d"

/-- Rendering of one vless client entry. -/
def renderClient (c : VlessClient) : String :=
  jobj [("id", jstr c.id), ("level", toString c.level), ("email", jstr c.email)]

/-- Rendering of one inbound, reproducing the nesting of the source dict. -/
def renderInbound (ib : Inbound) : String :=
  jobj [("port", toString ib.port),
        ("protocol", jstr ib.protocol),
        ("settings", jobj [("clients", jarr (ib.clients.map renderClient)),
                           ("decryption", jstr ib.decryption)]),
        ("streamSettings", jobj [("network", jstr ib.network),
                                 ("wsSettings", jobj [("path", jstr ib.wsPath)])]),
        ("tag", jstr ib.tag)]

/-- Rendering of one outbound. -/
def renderOutbound (ob : Outbound) : String :=
  jobj [("protocol", jstr ob.protocol),
        ("settings", match ob.settingsDomainStrategy with
          | some d => jobj [("domainStrategy", jstr d)]
          | none => jobj []),
        ("tag", jstr ob.tag)]

/-- Rendering of one routing rule. -/
def renderRule (r : RoutingRule) : String :=
  jobj [("type", jstr r.ruleType), ("ip", jarr (r.ip.map jstr)),
        ("outboundTag", jstr r.outboundTag)]

/-- Rendering of the whole V2Ray configuration document. -/
def renderV2rayConfig (cfg : V2rayConfig) : String :=
  jobj [("log", jobj [("loglevel", jstr cfg.logCfg.loglevel),
                      ("access", jstr cfg.logCfg.access),
                      ("error", jstr cfg.logCfg.errorLog)]),
        ("dns", jobj [("servers", jarr (cfg.dns.map jstr))]),
        ("inbounds", jarr (cfg.inbounds.map renderInbound)),
        ("outbounds", jarr (cfg.outbounds.map renderOutbound)),
        ("routing", jobj [("domainStrategy", jstr cfg.routing.domainStrategy),
                          ("rules", jarr (cfg.routing.rules.map renderRule))])]

/-! ## ConfigService.sync_all_configs -/

/-- The two rendered documents on disk (config.json and Caddyfile); none
when a document has not been written yet. -/
structure RenderedFiles where
  config_json : Option String
  caddyfile : Option String
deriving DecidableEq, Repr

/-- ConfigService.write_v2ray_config: overwrites config.json with the
rendered configuration. -/
def write_v2ray_config (fs : RenderedFiles) (cfg : V2rayConfig) : RenderedFiles :=
  { fs with config_json := some (renderV2rayConfig cfg) }

/-- ConfigService.write_caddyfile: overwrites the Caddyfile. -/
def write_caddyfile (fs : RenderedFiles) (content : String) : RenderedFiles :=
  { fs with caddyfile := some content }

/-- ConfigService.sync_all_configs: generates the V2Ray configuration and
writes it, then generates the Caddyfile (the staging flag models the
ACME_STAGING environment variable) and writes it. -/
def sync_all_configs (domain : String) (users : List UserDict)
    (v2ray_port : Nat) (acme_staging : Bool) (fs : RenderedFiles) : RenderedFiles :=
  let fs1 := write_v2ray_config fs (generate_v2ray_config users v2ray_port)
  write_caddyfile fs1 (generate_caddyfile domain users v2ray_port acme_staging)

/-! ## Database.update_user (registry update operation) -/

/-- A stored user row of the users table (SELECT * row).  Unlike the dicts
fed to the synthesizer, every column is present. -/
structure DbUser where
  id : Nat
  uuid : String
  email : String
  secret_path : String
  level : Int
  enabled : Int
  notes : String
deriving DecidableEq, Repr

/-- A value bound to one SQL parameter: text or integer. -/
inductive SqlValue where
  | text (s : String)
  | num (n : Int)
deriving DecidableEq, Repr

/-- The allowed_fields list of Database.update_user. -/
def allowed_fields : List String :=
  ["email", "secret_path", "level", "enabled", "notes"]

/-- Application of one SET assignment of the generated UPDATE statement to
a row: the field named by the key receives the value (assignments pairing
a column with a value of the other SQL type are left out of the model, as
no caller produces them). -/
def applyField (u : DbUser) (kv : String × SqlValue) : DbUser :=
  match kv with
  | (k, .text v) =>
    if k = "email" then { u with email := v }
    else if k = "secret_path" then { u with secret_path := v }
    else if k = "notes" then { u with notes := v }
    else u
  | (k, .num v) =>
    if k = "level" then { u with level := v }
    else if k = "enabled" then { u with enabled := v }
    else u

/-- Database.update_user over the users table: keeps only the kwargs whose
key is in allowed_fields, returns false without touching the table when
none remain, and otherwise applies the SET clause to every row whose uuid
matches, returning whether any row matched (cursor rowcount). -/
def db_update_user (tbl : List DbUser) (user_uuid : String)
    (kwargs : List (String × SqlValue)) : List DbUser × Bool :=
  let updates := kwargs.filter fun kv => allowed_fields.contains kv.1
  if updates.isEmpty then (tbl, false)
  else
    (tbl.map fun u =>
       if u.uuid == user_uuid then updates.foldl applyField u else u,
     tbl.any fun u => u.uuid == user_uuid)

/-- The update_fields dict built by the HTTP update endpoint from an
UpdateUserRequest: only email, enabled (converted to an integer) and notes
can appear, in this order; absent request fields contribute nothing. -/
def buildUpdateFields (email : Option String) (enabled : Option Bool)
    (notes : Option String) : List (String × SqlValue) :=
  (match email with
   | some e => [("email", SqlValue.text e)]
   | none => [])
  ++ (match enabled with
      | some b => [("enabled", SqlValue.num (if b then 1 else 0))]
      | none => [])
  ++ (match notes with
      | some n => [("notes", SqlValue.text n)]
      | none => [])

/-! ## Database.record_device_access (device access log) -/

/-- One row of the device_access_logs table. -/
structure DeviceRow where
  user_id : Nat
  user_agent : String
  source_ip : String
  accessed_path : String
  first_seen_at : Nat
  last_seen_at : Nat
  access_count : Nat
deriving DecidableEq, Repr

/-- The natural key comparison of device rows. -/
def keyMatches (r : DeviceRow) (uid : Nat) (ua ip : String) : Bool :=
  r.user_id == uid && r.user_agent == ua && r.source_ip == ip

/-- Whether the table already holds a row with the given natural key. -/
def hasKey (tbl : List DeviceRow) (uid : Nat) (ua ip : String) : Bool :=
  tbl.any fun r => keyMatches r uid ua ip

/-- Modelled from the spec: schema.sql is not under src, so the column
defaults the bare INSERT of record_device_access relies on are taken from
the specification of the absent-key case: access_count = 1 and
first_seen_at = last_seen_at = now. -/
def freshDeviceRow (uid : Nat) (ua ip path : String) (now : Nat) : DeviceRow :=
  { user_id := uid, user_agent := ua, source_ip := ip,
    accessed_path := path, first_seen_at := now, last_seen_at := now,
    access_count := 1 }

/-- Database.record_device_access: the upsert statement.  When a row with
the natural key exists, the ON CONFLICT clause of the source SQL refreshes
last_seen_at, increments access_count and overwrites accessed_path;
otherwise a fresh row is inserted. -/
def record_device_access (tbl : List DeviceRow) (uid : Nat)
    (ua ip path : String) (now : Nat) : List DeviceRow :=
  if hasKey tbl uid ua ip then
    tbl.map fun r =>
      if keyMatches r uid ua ip then
        { r with last_seen_at := now, access_count := r.access_count + 1,
                 accessed_path := path }
      else r
  else
    tbl ++ [freshDeviceRow uid ua ip path now]

/-! ## Administrative authentication (auth.verify_api_token) and the route
declarations of routes.py -/

/-- auth.verify_api_token: with an unconfigured (empty) API_SECRET every
request fails with status 500; with a configured secret, a bearer
credential differing from it fails with status 401; otherwise the request
is accepted. -/
def verify_api_token (api_secret : String) (cred : String) :
    Except (Nat × String) Bool :=
  if api_secret == "" then
    .error (500, "API_SECRET not configured. Please set API_SECRET in .env file.")
  else if cred != api_secret then
    .error (401, "Invalid authentication credentials")
  else
    .ok true

/-- One route registration of routes.py: method, path, and the list of
security dependency functions declared on it (via the decorator or via a
Security parameter of the handler). -/
structure RouteDecl where
  method : String
  path : String
  dependencies : List String
deriving DecidableEq, Repr

/-- The user-creation route: no dependency is declared on it. -/
def createUserRoute : RouteDecl :=
  { method := "POST", path := "/api/users", dependencies := [] }

/-- Every route registered by routes.py (the router carries the /api
prefix and itself declares no dependency, as does app.include_router). -/
def apiRoutes : List RouteDecl :=
  [createUserRoute,
   { method := "GET", path := "/api/users", dependencies := [] },
   { method := "GET", path := "/api/users/\x7buser_uuid\x7d", dependencies := [] },
   { method := "PUT", path := "/api/users/\x7buser_uuid\x7d", dependencies := [] },
   { method := "DELETE", path := "/api/users/\x7buser_uuid\x7d", dependencies := [] },
   { method := "POST", path := "/api/config/reload", dependencies := [] },
   { method := "GET", path := "/api/devices", dependencies := [] },
   { method := "GET", path := "/api/users/\x7buser_uuid\x7d/devices", dependencies := [] },
   { method := "GET", path := "/api/health", dependencies := [] }]

/-- Evaluation of one declared dependency against the presented bearer
credential: the token verifier rejects with its error, anything else
passes. -/
def runDependency (api_secret cred : String) (dep : String) :
    Option (Nat × String) :=
  if dep == "verify_api_token" then
    match verify_api_token api_secret cred with
    | .error e => some e
    | .ok _ => none
  else none

/-- The framework guard run before a route handler: the first rejection
among the declared dependencies, none when the request reaches the
handler. -/
def route_guard (r : RouteDecl) (api_secret cred : String) :
    Option (Nat × String) :=
  (r.dependencies.filterMap (runDependency api_secret cred)).head?

/-! ## Decoy traffic engine: api_server.serve_video_segment -/

/-- The fixed chunk size of the streaming loops (64 KiB). -/
def chunkSize : Nat := 64 * 1024

/-- The reading loop of the range branch of serve_video_segment: starting
at a file position with a remaining byte budget, it repeatedly reads
min(chunkSize, remaining) bytes, stops on an empty read (end of file) or
an exhausted budget, and yields each chunk. -/
def iterfile (file : List Nat) (pos remaining : Nat) : List (List Nat) :=
  if h : remaining = 0 then []
  else
    match (file.drop pos).take (min chunkSize remaining) with
    | [] => []
    | c :: cs =>
      (c :: cs) :: iterfile file (pos + (c :: cs).length)
        (remaining - (c :: cs).length)
termination_by remaining
decreasing_by simp; omega

/-- The reading loop of the whole-file branch of serve_video_segment:
reads chunkSize bytes until an empty read. -/
def iterfileFull (file : List Nat) (pos : Nat) : List (List Nat) :=
  match h : (file.drop pos).take chunkSize with
  | [] => []
  | c :: cs => (c :: cs) :: iterfileFull file (pos + (c :: cs).length)
termination_by file.length - pos
decreasing_by
  have hlen : pos < file.length := by
    by_contra hge
    have : file.drop pos = [] := List.drop_eq_nil_of_le (by omega)
    simp [this] at h
  simp
  omega

/-- Bytes of an ASCII body string. -/
def strBytes (s : String) : List Nat := s.toList.map Char.toNat

/-- An HTTP response of the decoy media path: status code, the headers the
handler passes explicitly (plus the content type it sets), and the
streamed body chunks. -/
structure HttpResponse where
  status : Nat
  headers : List (String × String)
  chunks : List (List Nat)
deriving DecidableEq, Repr

/-- api_server.serve_video_segment.  The backing file is none when
video.mp4 is absent (the 404 branch).  A present range header arrives as
the already-parsed pair of optional start and end values: the source
defaults a missing start to 0 and a missing end to file_size - 1 after
splitting the header on the dash (the textual int parsing itself is the
frameworks and is elided).  The per-request segment token is ignored by
the source and therefore does not appear. -/
def serve_video_segment (file : Option (List Nat))
    (range : Option (Option Nat × Option Nat)) : HttpResponse :=
  match file with
  | none => { status := 404, headers := [], chunks := [strBytes "Video not found"] }
  | some f =>
    let file_size := f.length
    match range with
    | some se =>
      let start := se.1.getD 0
      let e := se.2.getD (file_size - 1)
      { status := 206
        headers :=
          [("Content-Type", "video/mp4"),
           ("Content-Range",
            "bytes " ++ toString start ++ "-" ++ toString e ++ "/"
              ++ toString file_size),
           ("Accept-Ranges", "bytes"),
           ("Content-Length", toString (e - start + 1)),
           ("Cache-Control", "no-cache, no-store, must-revalidate"),
           ("Pragma", "no-cache"),
           ("Expires", "0")]
        chunks := iterfile f start (e - start + 1) }
    | none =>
      { status := 200
        headers :=
          [("Content-Type", "video/mp4"),
           ("Accept-Ranges", "bytes"),
           ("Content-Length", toString file_size),
           ("Cache-Control", "no-cache, no-store, must-revalidate"),
           ("Pragma", "no-cache"),
           ("Expires", "0")]
        chunks := iterfileFull f 0 }

/-! ## Decoy traffic engine: api_server.unified_decoy_endpoint -/

/-- The fixed disguise path of the decoy endpoint. -/
def DECOY_PATH : String := "MwH1HvttOawqljoOZFIYImPi2adY0CLG"

/-- The built-in chat corpus used when no corpus file overrides it. -/
def defaultChatMessages : List String :=
  ["Hey, anyone online?",
   "Just finished watching that video",
   "This platform is pretty cool",
   "Great content today!",
   "Thanks for the invite"]

/-- The sender names drawn for synthetic chat events. -/
def chatUsers : List String := ["Alice", "Bob", "Charlie", "Diana"]

/-- Whether a character list begins with a given needle. -/
def startsWithChars : List Char → List Char → Bool
  | [], _ => true
  | _ :: _, [] => false
  | a :: as, b :: bs => a == b && startsWithChars as bs

/-- Whether a needle occurs anywhere in a character list. -/
def occursIn (needle : List Char) : List Char → Bool
  | [] => needle.isEmpty
  | c :: rest => startsWithChars needle (c :: rest) || occursIn needle rest

/-- The Python membership test of one string inside another, as used on
the Accept header. -/
def pyContains (needle hay : String) : Bool :=
  occursIn needle.toList hay.toList

/-- The response alternatives of the unified decoy endpoint: the static
decoy document, a not-found response, or the opened event stream. -/
inductive DecoyResponse where
  | fileResponse (name : String)
  | notFound
  | eventStream
deriving DecidableEq, Repr

/-- api_server.unified_decoy_endpoint routing: the root path serves the
static decoy document (404 when absent); the fixed disguise path opens the
event stream when the Accept header declares text/event-stream and
otherwise serves the same static document (falling through to 404 when it
is absent); every other path is not found. -/
def unified_decoy_endpoint (path accept : String)
    (decoyHtmlExists : Bool) : DecoyResponse :=
  if path == "" then
    if decoyHtmlExists then .fileResponse "decoy.html" else .notFound
  else if path == DECOY_PATH then
    if pyContains "text/event-stream" accept then .eventStream
    else if decoyHtmlExists then .fileResponse "decoy.html" else .notFound
  else
    .notFound

/-- One synthetic chat event (sender, message, emission time). -/
structure ChatEvent where
  user : String
  message : String
  timestamp : Nat
deriving DecidableEq, Repr

/-- One step of the event generator: either it waits and yields an event
and the next loop index, or it halts.  The halt alternative exists only to
express termination; the generator never produces it. -/
inductive GenStep where
  | yield (wait : Nat) (ev : ChatEvent) (next : Nat)
  | halt
deriving DecidableEq, Repr

/-- The random draws of the generator, one independent stream per call
site, indexed by the loop iteration. -/
structure RandomOracle where
  waitChoice : Nat → Nat
  userChoice : Nat → Nat
  msgChoice : Nat → Nat

/-- random.randint over an inclusive interval, driven by one oracle draw:
the result is lo plus the draw reduced modulo the interval width, so it
ranges over exactly the inclusive interval. -/
def randint (lo hi : Nat) (r : Nat) : Nat := lo + r % (hi - lo + 1)

/-- random.choice from a list, driven by one oracle draw. -/
def pyChoice (xs : List String) (r : Nat) : String :=
  xs.getD (r % xs.length) ""

/-- One iteration of the generate_chat_events loop at index k: sleep a
uniformly random 1 to 300 time units, then emit one event with a randomly
chosen sender, a randomly chosen corpus message and the emission
timestamp, and continue with the next index.  The loop body is an
unconditional while True: no branch halts. -/
def generateChatEvents (o : RandomOracle) (msgs : List String)
    (clock k : Nat) : GenStep :=
  let wait := randint 1 300 (o.waitChoice k)
  .yield wait
    { user := pyChoice chatUsers (o.userChoice k)
      message := pyChoice msgs (o.msgChoice k)
      timestamp := clock + wait }
    (k + 1)

/-- The wait preceding the event of a generator step (0 for a halt). -/
def waitOf : GenStep → Nat
  | .yield w _ _ => w
  | .halt => 0

/-! ## Correspondence lemmas for the synthesizer loops -/

/-- A disabled user is never kept. -/
theorem isKept_disable (u : UserDict) : isKept { u with enabled := 0 } = false := by
  simp [isKept]

/-- The inbound list built by the generator loop is the pointwise image of
the kept users paired with their ports. -/
theorem v2rayInbounds_fst (us : List UserDict) :
    ∀ p, (v2rayInbounds p us).1
      = (keptWithPorts p us).map fun e => mkInbound e.1 e.2 := by
  induction us with
  | nil => intro p; rfl
  | cons u rest ih =>
    intro p
    by_cases h1 : u.enabled = 0
    · have hk : isKept u = false := by simp [isKept, h1]
      simp [v2rayInbounds, keptWithPorts, h1, hk, ih]
    · by_cases h2 : truthy u.secret_path
      · have hk : isKept u = true := by simp [isKept, h1, h2]
        simp [v2rayInbounds, keptWithPorts, h1, h2, hk, ih]
      · have hk : isKept u = false := by simp [isKept, h2]
        simp [v2rayInbounds, keptWithPorts, h1, h2, hk, ih]

/-- The warning list collected by the generator loop holds exactly the
emails of the enabled users with a falsy secret_path, in order, and does
not depend on the port counter. -/
theorem v2rayInbounds_snd (us : List UserDict) :
    ∀ p, (v2rayInbounds p us).2
      = (us.filter fun u => (u.enabled != 0) && !truthy u.secret_path).map
          UserDict.email := by
  induction us with
  | nil => intro p; rfl
  | cons u rest ih =>
    intro p
    by_cases h1 : u.enabled = 0
    · simp [v2rayInbounds, List.filter_cons, h1, ih]
    · by_cases h2 : truthy u.secret_path
      · simp [v2rayInbounds, List.filter_cons, h1, h2, ih]
      · simp [v2rayInbounds, List.filter_cons, h1, h2, ih]

/-- The handle list built by the Caddyfile loop is the pointwise image of
the kept users paired with their ports. -/
theorem caddyHandles_eq (us : List UserDict) :
    ∀ p, caddyHandles p us
      = (keptWithPorts p us).map fun e => handleText e.1 e.2 := by
  induction us with
  | nil => intro p; rfl
  | cons u rest ih =>
    intro p
    by_cases h1 : u.enabled = 0
    · have hk : isKept u = false := by simp [isKept, h1]
      simp [caddyHandles, keptWithPorts, h1, hk, ih]
    · by_cases h2 : truthy u.secret_path
      · have hk : isKept u = true := by simp [isKept, h1, h2]
        simp [caddyHandles, keptWithPorts, h1, h2, hk, ih]
      · have hk : isKept u = false := by simp [isKept, h2]
        simp [caddyHandles, keptWithPorts, h1, h2, hk, ih]

/-- The kept users of the pairing are exactly the filter of the guard. -/
theorem keptWithPorts_snd (us : List UserDict) :
    ∀ p, (keptWithPorts p us).map Prod.snd = us.filter isKept := by
  induction us with
  | nil => intro p; rfl
  | cons u rest ih =>
    intro p
    by_cases hk : isKept u
    · simp [keptWithPorts, List.filter_cons, hk, ih]
    · simp [keptWithPorts, List.filter_cons, hk, ih]

/-- Lengths of the pairing and of the kept filter agree. -/
theorem keptWithPorts_length (us : List UserDict) (p : Nat) :
    (keptWithPorts p us).length = (us.filter isKept).length := by
  have h := congrArg List.length (keptWithPorts_snd us p)
  simpa using h

/-- Splitting the pairing over an append: the second part starts at the
port following the kept users of the first part. -/
theorem keptWithPorts_append (xs : List UserDict) :
    ∀ (ys : List UserDict) (p : Nat),
      keptWithPorts p (xs ++ ys)
        = keptWithPorts p xs
          ++ keptWithPorts (p + (xs.filter isKept).length) ys := by
  induction xs with
  | nil => intro ys p; simp [keptWithPorts]
  | cons u rest ih =>
    intro ys p
    by_cases hk : isKept u
    · have harith : p + 1 + (rest.filter isKept).length
          = p + ((rest.filter isKept).length + 1) := by omega
      simp [keptWithPorts, List.filter_cons, hk, ih, harith]
    · simp [keptWithPorts, List.filter_cons, hk, ih]

/-- Shifting the starting port shifts every assigned port by the same
amount and changes nothing else. -/
theorem keptWithPorts_shift (us : List UserDict) :
    ∀ p, keptWithPorts (p + 1) us
      = (keptWithPorts p us).map fun e => (e.1 + 1, e.2) := by
  induction us with
  | nil => intro p; rfl
  | cons u rest ih =>
    intro p
    by_cases hk : isKept u
    · simp [keptWithPorts, hk, ih]
    · simp [keptWithPorts, hk, ih]

/-- The assigned ports are the base plus the position among kept users. -/
theorem keptWithPorts_ports (us : List UserDict) :
    ∀ p, (keptWithPorts p us).map Prod.fst
      = (List.range (us.filter isKept).length).map fun i => p + i := by
  induction us with
  | nil => intro p; rfl
  | cons u rest ih =>
    intro p
    by_cases hk : isKept u
    · have hstep : keptWithPorts p (u :: rest) = (p, u) :: keptWithPorts (p + 1) rest := by
        simp [keptWithPorts, hk]
      have hfil : (u :: rest).filter isKept = u :: rest.filter isKept := by
        simp [List.filter_cons, hk]
      rw [hstep, List.map_cons, ih (p + 1), hfil, List.length_cons,
          List.range_succ_eq_map, List.map_cons, List.map_map]
      congr 1
      apply List.map_congr_left
      intro a _
      simp [Function.comp]
      omega
    · simp [keptWithPorts, List.filter_cons, hk, ih]

/-! ## Lemmas about the chunked reading loops -/

/-- Concatenating the chunks the range loop yields recovers exactly the
requested window of the file, truncated at end of file. -/
theorem iterfile_join (file : List Nat) :
    ∀ remaining pos,
      (iterfile file pos remaining).join = (file.drop pos).take remaining := by
  intro remaining
  induction remaining using Nat.strong_induction_on with
  | _ remaining ih =>
    intro pos
    rw [iterfile.eq_def]
    split
    · next h => simp [h]
    · next h =>
      split
      · next hc =>
        have hdrop : file.drop pos = [] := by
          rcases List.take_eq_nil_iff.mp hc with h0 | h0
          · exfalso
            have h1 : 0 < chunkSize := by norm_num [chunkSize]
            omega
          · exact h0
        simp [hdrop]
      · next c cs hc =>
        have hlen := congrArg List.length hc
        rw [List.length_take] at hlen
        have hL : (c :: cs).length ≤ min chunkSize remaining := by omega
        have hle : (c :: cs).length ≤ remaining :=
          le_trans hL (Nat.min_le_right _ _)
        have hck : (file.drop pos).take (c :: cs).length = c :: cs := by
          calc (file.drop pos).take (c :: cs).length
              = ((file.drop pos).take (min chunkSize remaining)).take
                  (c :: cs).length := by
                rw [List.take_take, Nat.min_eq_left hL]
            _ = c :: cs := by rw [hc, List.take_length]
        have hL1 : 0 < (c :: cs).length := by simp
        have hrec := ih (remaining - (c :: cs).length)
          (by omega) (pos + (c :: cs).length)
        show (c :: cs)
            ++ (iterfile file (pos + (c :: cs).length)
                (remaining - (c :: cs).length)).join
          = List.take remaining (List.drop pos file)
        rw [hrec]
        conv_rhs => rw [show remaining
          = (c :: cs).length + (remaining - (c :: cs).length) by omega,
          List.take_add]
        rw [hck]
        congr 1
        rw [List.drop_drop]

/-- Every chunk the range loop yields fits in the fixed chunk size. -/
theorem iterfile_chunk_le (file : List Nat) :
    ∀ remaining pos c, c ∈ iterfile file pos remaining →
      c.length ≤ chunkSize := by
  intro remaining
  induction remaining using Nat.strong_induction_on with
  | _ remaining ih =>
    intro pos c hc
    rw [iterfile.eq_def] at hc
    split at hc
    · simp at hc
    · next h =>
      split at hc
      · simp at hc
      · next c0 cs0 hc0 =>
        rcases List.mem_cons.mp hc with rfl | hmem
        · have := congrArg List.length hc0
          rw [List.length_take] at this
          omega
        · refine ih _ ?_ _ _ hmem
          have hlen0 : 0 < (c0 :: cs0).length := by simp
          omega

/-! ## Lemmas about the registry update operation -/

/-- No SET assignment ever writes the uuid column. -/
theorem applyField_uuid (u : DbUser) (kv : String × SqlValue) :
    (applyField u kv).uuid = u.uuid := by
  rcases kv with ⟨k, v⟩
  cases v with
  | text s => simp only [applyField]; split_ifs <;> rfl
  | num n => simp only [applyField]; split_ifs <;> rfl

/-- Folding SET assignments never writes the uuid column. -/
theorem foldl_applyField_uuid (l : List (String × SqlValue)) :
    ∀ u : DbUser, (l.foldl applyField u).uuid = u.uuid := by
  induction l with
  | nil => intro u; rfl
  | cons kv rest ih =>
    intro u
    rw [List.foldl_cons, ih, applyField_uuid]

/-- A SET assignment whose key is not secret_path leaves secret_path
unchanged. -/
theorem applyField_keep_secret_path (u : DbUser) (kv : String × SqlValue)
    (h : kv.1 ≠ "secret_path") :
    (applyField u kv).secret_path = u.secret_path := by
  rcases kv with ⟨k, v⟩
  cases v with
  | text s =>
    simp only [applyField]
    split_ifs
    all_goals first | rfl | simp_all
  | num n => simp only [applyField]; split_ifs <;> rfl

/-- A SET assignment whose key is not level leaves level unchanged. -/
theorem applyField_keep_level (u : DbUser) (kv : String × SqlValue)
    (h : kv.1 ≠ "level") :
    (applyField u kv).level = u.level := by
  rcases kv with ⟨k, v⟩
  cases v with
  | text s => simp only [applyField]; split_ifs <;> rfl
  | num n =>
    simp only [applyField]
    split_ifs
    all_goals first | rfl | simp_all

/-- Folding SET assignments none of which targets secret_path leaves
secret_path unchanged. -/
theorem foldl_keep_secret_path (l : List (String × SqlValue)) :
    ∀ u : DbUser, (∀ kv ∈ l, kv.1 ≠ "secret_path") →
      (l.foldl applyField u).secret_path = u.secret_path := by
  induction l with
  | nil => intro u _; rfl
  | cons kv rest ih =>
    intro u hall
    rw [List.foldl_cons, ih _ (fun x hx => hall x (List.mem_cons_of_mem _ hx)),
        applyField_keep_secret_path _ _ (hall kv (List.mem_cons_self _ _))]

/-- Folding SET assignments none of which targets level leaves level
unchanged. -/
theorem foldl_keep_level (l : List (String × SqlValue)) :
    ∀ u : DbUser, (∀ kv ∈ l, kv.1 ≠ "level") →
      (l.foldl applyField u).level = u.level := by
  induction l with
  | nil => intro u _; rfl
  | cons kv rest ih =>
    intro u hall
    rw [List.foldl_cons, ih _ (fun x hx => hall x (List.mem_cons_of_mem _ hx)),
        applyField_keep_level _ _ (hall kv (List.mem_cons_self _ _))]

/-- The update fields the HTTP endpoint can produce carry only the email,
enabled and notes keys. -/
theorem buildUpdateFields_keys (e : Option String) (b : Option Bool)
    (n : Option String) :
    ∀ kv ∈ buildUpdateFields e b n,
      kv.1 = "email" ∨ kv.1 = "enabled" ∨ kv.1 = "notes" := by
  intro kv hkv
  simp only [buildUpdateFields] at hkv
  rcases List.mem_append.mp hkv with h12 | h3
  · rcases List.mem_append.mp h12 with h1 | h2
    · cases e with
      | none => simp at h1
      | some s =>
        simp at h1
        rw [h1]
        exact Or.inl rfl
    · cases b with
      | none => simp at h2
      | some bb =>
        simp at h2
        rw [h2]
        exact Or.inr (Or.inl rfl)
  · cases n with
    | none => simp at h3
    | some s =>
      simp at h3
      rw [h3]
      exact Or.inr (Or.inr rfl)

/-! ## Sample data used by concrete witnesses and counterexamples -/

/-- A first enabled sample user with a secret path. -/
def userA : UserDict :=
  { uuid := "11111111-aaaa", email := "alice@example.com", level := 0,
    enabled := 1, secret_path := some "pathAAAA" }

/-- A second enabled sample user with a secret path. -/
def userB : UserDict :=
  { uuid := "22222222-bbbb", email := "bob@example.com", level := 0,
    enabled := 1, secret_path := some "pathBBBB" }

/-- An enabled sample user without a secret path. -/
def userBad : UserDict :=
  { uuid := "33333333-cccc", email := "carol@example.com", level := 0,
    enabled := 1, secret_path := none }

/-! ## Claim theorems -/

/-- C1: the specification requires every administrative operation to
reject a request whose static bearer credential does not match the
deployment-configured secret, failing closed when the secret is missing.
The verifier verify_api_token indeed rejects a mismatched credential with
401 and an unconfigured secret with 500 — but routes.py declares it as a
dependency of no route, so the dependency guard of every administrative
route passes any request, with any credential, straight to the handler:
the administrative surface is served without authentication. -/
theorem admin_api_lacks_auth_gate :
    (apiRoutes.all fun r => r.dependencies.isEmpty) = true
    ∧ route_guard createUserRoute "s3cret" "wrong-token" = none
    ∧ verify_api_token "s3cret" "wrong-token"
        = Except.error (401, "Invalid authentication credentials")
    ∧ verify_api_token "" "any-token"
        = Except.error
            (500, "API_SECRET not configured. Please set API_SECRET in .env file.") := by
  exact ⟨rfl, rfl, rfl, rfl⟩

/-- C5: synthesis is deterministic.  With the same domain, user list, base
port and environment, the two rendered documents do not depend on the
previously written state (two runs give byte-identical documents), and
running synthesis again over its own output changes nothing. -/
theorem sync_all_configs_deterministic (domain : String)
    (users : List UserDict) (v2ray_port : Nat) (acme_staging : Bool)
    (fs1 fs2 : RenderedFiles) :
    (sync_all_configs domain users v2ray_port acme_staging fs1).config_json
      = (sync_all_configs domain users v2ray_port acme_staging fs2).config_json
    ∧ (sync_all_configs domain users v2ray_port acme_staging fs1).caddyfile
      = (sync_all_configs domain users v2ray_port acme_staging fs2).caddyfile
    ∧ sync_all_configs domain users v2ray_port acme_staging
        (sync_all_configs domain users v2ray_port acme_staging fs1)
      = sync_all_configs domain users v2ray_port acme_staging fs1 := by
  exact ⟨rfl, rfl, rfl⟩

/-- C4: the synthesized ingress description holds one listener per kept
user (enabled with a secret_path): the ports are base plus the position
among kept users (hence pairwise distinct), each listener authenticates
exactly the one credential of its user, each listener is keyed to slash
followed by that user's secret_path, an enabled user with no secret_path
is recorded as a warning, and removing such a bad record leaves the
generated listeners untouched (synthesis never aborts on one bad
record). -/
theorem v2ray_per_user_listeners (users : List UserDict) (base : Nat)
    (pre post : List UserDict) (bad : UserDict)
    (hen : bad.enabled ≠ 0) (hpath : truthy bad.secret_path = false) :
    (generate_v2ray_config users base).inbounds.map Inbound.port
        = (List.range (users.filter isKept).length).map (fun i => base + i)
    ∧ (generate_v2ray_config users base).inbounds.map Inbound.clients
        = (users.filter isKept).map
            (fun u => [{ id := u.uuid, level := u.level, email := u.email }])
    ∧ (generate_v2ray_config users base).inbounds.map Inbound.wsPath
        = (users.filter isKept).map (fun u => "/" ++ u.secret_path.getD "")
    ∧ (v2rayInbounds base users).2
        = (users.filter fun u => (u.enabled != 0) && !truthy u.secret_path).map
            UserDict.email
    ∧ bad.email ∈ (v2rayInbounds base (pre ++ bad :: post)).2
    ∧ (generate_v2ray_config (pre ++ bad :: post) base).inbounds
        = (generate_v2ray_config (pre ++ post) base).inbounds := by
  refine ⟨?_, ?_, ?_, v2rayInbounds_snd users base, ?_, ?_⟩
  · show ((v2rayInbounds base users).1).map Inbound.port = _
    rw [v2rayInbounds_fst users base, List.map_map]
    exact keptWithPorts_ports users base
  · show ((v2rayInbounds base users).1).map Inbound.clients = _
    conv_rhs => rw [← keptWithPorts_snd users base]
    rw [v2rayInbounds_fst users base, List.map_map, List.map_map]
    rfl
  · show ((v2rayInbounds base users).1).map Inbound.wsPath = _
    conv_rhs => rw [← keptWithPorts_snd users base]
    rw [v2rayInbounds_fst users base, List.map_map, List.map_map]
    rfl
  · rw [v2rayInbounds_snd]
    have hcond : ((bad.enabled != 0) && !truthy bad.secret_path) = true := by
      simp [hpath]
      simpa using hen
    exact List.mem_map_of_mem _ (List.mem_filter.mpr ⟨by simp, hcond⟩)
  · show (v2rayInbounds base (pre ++ bad :: post)).1
        = (v2rayInbounds base (pre ++ post)).1
    have hkbad : isKept bad = false := by simp [isKept, hpath]
    rw [v2rayInbounds_fst, v2rayInbounds_fst,
        keptWithPorts_append pre (bad :: post) base,
        keptWithPorts_append pre post base]
    have hstep : keptWithPorts (base + (pre.filter isKept).length) (bad :: post)
        = keptWithPorts (base + (pre.filter isKept).length) post := by
      simp [keptWithPorts, hkbad]
    rw [hstep]

/-- Witness for C4 at a concrete input: three users, the middle one
enabled but without a secret path. -/
theorem v2ray_per_user_listeners_witness :
    userBad.enabled ≠ 0
    ∧ truthy userBad.secret_path = false
    ∧ ((generate_v2ray_config [userA, userBad, userB] 10000).inbounds.map Inbound.port
        = (List.range ([userA, userBad, userB].filter isKept).length).map
            (fun i => 10000 + i)
      ∧ (generate_v2ray_config [userA, userBad, userB] 10000).inbounds.map Inbound.clients
        = ([userA, userBad, userB].filter isKept).map
            (fun u => [{ id := u.uuid, level := u.level, email := u.email }])
      ∧ (generate_v2ray_config [userA, userBad, userB] 10000).inbounds.map Inbound.wsPath
        = ([userA, userBad, userB].filter isKept).map
            (fun u => "/" ++ u.secret_path.getD "")
      ∧ (v2rayInbounds 10000 [userA, userBad, userB]).2
        = ([userA, userBad, userB].filter fun u =>
            (u.enabled != 0) && !truthy u.secret_path).map UserDict.email
      ∧ userBad.email ∈ (v2rayInbounds 10000 ([userA] ++ userBad :: [userB])).2
      ∧ (generate_v2ray_config ([userA] ++ userBad :: [userB]) 10000).inbounds
        = (generate_v2ray_config ([userA] ++ [userB]) 10000).inbounds) := by
  exact ⟨by decide, by decide,
    v2ray_per_user_listeners [userA, userBad, userB] 10000 [userA] [userB]
      userBad (by decide) (by decide)⟩

/-- C3 (counterexample): disabling one identity and re-synthesizing does
NOT leave every other listener and route byte-identical.  With two enabled
users, the second user's listener sits at port 10001 and its route
forwards there; after disabling the first user and re-synthesizing, the
second user's listener and route move to port 10000, so both its inbound
and its rendered handle block differ from before. -/
theorem disable_user_resync_counterexample :
    (generate_v2ray_config [userA, userB] 10000).inbounds
      = [mkInbound 10000 userA, mkInbound 10001 userB]
    ∧ (generate_v2ray_config [{ userA with enabled := 0 }, userB] 10000).inbounds
      = [mkInbound 10000 userB]
    ∧ mkInbound 10000 userB ≠ mkInbound 10001 userB
    ∧ caddyHandles 10000 [userA, userB]
      = [handleText 10000 userA, handleText 10001 userB]
    ∧ caddyHandles 10000 [{ userA with enabled := 0 }, userB]
      = [handleText 10000 userB]
    ∧ handleText 10000 userB ≠ handleText 10001 userB := by
  refine ⟨rfl, rfl, by decide, rfl, rfl, by decide⟩

/-- C3 (amended): disabling one kept identity and re-synthesizing removes
exactly that identity's listener (the one sitting right after the
listeners of the kept users preceding it) and its route; the listeners and
routes of kept users preceding it are byte-identical to before, while
every kept user following it keeps its credential and path but moves to a
port lower by one, so those entries are identical except for the shifted
port. -/
theorem disable_user_resync (base : Nat) (pre post : List UserDict)
    (u : UserDict) (hk : isKept u = true) :
    ((generate_v2ray_config (pre ++ u :: post) base).inbounds).drop
        (pre.filter isKept).length
      = mkInbound (base + (pre.filter isKept).length) u
          :: ((generate_v2ray_config (pre ++ u :: post) base).inbounds).drop
              ((pre.filter isKept).length + 1)
    ∧ (generate_v2ray_config (pre ++ { u with enabled := 0 } :: post) base).inbounds
      = ((generate_v2ray_config (pre ++ u :: post) base).inbounds).take
          (pre.filter isKept).length
        ++ (((generate_v2ray_config (pre ++ u :: post) base).inbounds).drop
              ((pre.filter isKept).length + 1)).map
            (fun ib => { ib with port := ib.port - 1 })
    ∧ caddyHandles base (pre ++ { u with enabled := 0 } :: post)
      = (caddyHandles base (pre ++ u :: post)).take (pre.filter isKept).length
        ++ ((keptWithPorts base (pre ++ u :: post)).drop
              ((pre.filter isKept).length + 1)).map
            (fun e => handleText (e.1 - 1) e.2) := by
  have hbefore : keptWithPorts base (pre ++ u :: post)
      = keptWithPorts base pre
        ++ (base + (pre.filter isKept).length, u)
          :: keptWithPorts (base + (pre.filter isKept).length + 1) post := by
    rw [keptWithPorts_append pre (u :: post) base]
    simp [keptWithPorts, hk]
  have hafter : keptWithPorts base (pre ++ { u with enabled := 0 } :: post)
      = keptWithPorts base pre
        ++ keptWithPorts (base + (pre.filter isKept).length) post := by
    rw [keptWithPorts_append pre ({ u with enabled := 0 } :: post) base]
    simp [keptWithPorts, isKept_disable]
  have hshift : keptWithPorts (base + (pre.filter isKept).length + 1) post
      = (keptWithPorts (base + (pre.filter isKept).length) post).map
          (fun e => (e.1 + 1, e.2)) :=
    keptWithPorts_shift post (base + (pre.filter isKept).length)
  have hlenI : ((keptWithPorts base pre).map fun e => mkInbound e.1 e.2).length
      = (pre.filter isKept).length := by
    rw [List.length_map, keptWithPorts_length]
  have hlenH : ((keptWithPorts base pre).map fun e => handleText e.1 e.2).length
      = (pre.filter isKept).length := by
    rw [List.length_map, keptWithPorts_length]
  have hgen : ∀ (us : List UserDict) (b : Nat),
      (generate_v2ray_config us b).inbounds = (v2rayInbounds b us).1 :=
    fun _ _ => rfl
  refine ⟨?_, ?_, ?_⟩
  · simp only [hgen]
    rw [v2rayInbounds_fst, hbefore, List.map_append, List.map_cons,
        List.drop_left' hlenI]
    congr 1
    rw [show ((keptWithPorts base pre).map fun e => mkInbound e.1 e.2)
          ++ mkInbound (base + (pre.filter isKept).length) u
            :: (keptWithPorts (base + (pre.filter isKept).length + 1) post).map
                (fun e => mkInbound e.1 e.2)
        = (((keptWithPorts base pre).map fun e => mkInbound e.1 e.2)
            ++ [mkInbound (base + (pre.filter isKept).length) u])
          ++ (keptWithPorts (base + (pre.filter isKept).length + 1) post).map
              (fun e => mkInbound e.1 e.2) by simp]
    rw [List.drop_left' (by simp [hlenI])]
  · simp only [hgen]
    rw [v2rayInbounds_fst, v2rayInbounds_fst, hafter, hbefore,
        List.map_append, List.map_append, List.map_cons,
        List.take_left' hlenI]
    congr 1
    rw [show ((keptWithPorts base pre).map fun e => mkInbound e.1 e.2)
          ++ mkInbound (base + (pre.filter isKept).length) u
            :: (keptWithPorts (base + (pre.filter isKept).length + 1) post).map
                (fun e => mkInbound e.1 e.2)
        = (((keptWithPorts base pre).map fun e => mkInbound e.1 e.2)
            ++ [mkInbound (base + (pre.filter isKept).length) u])
          ++ (keptWithPorts (base + (pre.filter isKept).length + 1) post).map
              (fun e => mkInbound e.1 e.2) by simp]
    rw [List.drop_left' (by simp [hlenI]), hshift, List.map_map, List.map_map]
    rfl
  · rw [caddyHandles_eq, caddyHandles_eq, hafter, hbefore,
        List.map_append, List.map_append, List.map_cons,
        List.take_left' hlenH]
    congr 1
    rw [show keptWithPorts base pre
          ++ (base + (pre.filter isKept).length, u)
            :: keptWithPorts (base + (pre.filter isKept).length + 1) post
        = (keptWithPorts base pre
            ++ [(base + (pre.filter isKept).length, u)])
          ++ keptWithPorts (base + (pre.filter isKept).length + 1) post by simp]
    rw [List.drop_left' (by simp [keptWithPorts_length]), hshift, List.map_map]
    rfl

/-- Witness for C3 (amended) at a concrete input: two enabled users,
disabling the first. -/
theorem disable_user_resync_witness :
    isKept userA = true
    ∧ (((generate_v2ray_config ([] ++ userA :: [userB]) 10000).inbounds).drop
          (([] : List UserDict).filter isKept).length
        = mkInbound (10000 + (([] : List UserDict).filter isKept).length) userA
            :: ((generate_v2ray_config ([] ++ userA :: [userB]) 10000).inbounds).drop
                ((([] : List UserDict).filter isKept).length + 1)
      ∧ (generate_v2ray_config ([] ++ { userA with enabled := 0 } :: [userB]) 10000).inbounds
        = ((generate_v2ray_config ([] ++ userA :: [userB]) 10000).inbounds).take
            (([] : List UserDict).filter isKept).length
          ++ (((generate_v2ray_config ([] ++ userA :: [userB]) 10000).inbounds).drop
                ((([] : List UserDict).filter isKept).length + 1)).map
              (fun ib => { ib with port := ib.port - 1 })
      ∧ caddyHandles 10000 ([] ++ { userA with enabled := 0 } :: [userB])
        = (caddyHandles 10000 ([] ++ userA :: [userB])).take
            (([] : List UserDict).filter isKept).length
          ++ ((keptWithPorts 10000 ([] ++ userA :: [userB])).drop
                ((([] : List UserDict).filter isKept).length + 1)).map
              (fun e => handleText (e.1 - 1) e.2)) := by
  exact ⟨by decide, disable_user_resync 10000 [] [userB] userA (by decide)⟩

/-- A sample stored user row. -/
def sampleDbUser : DbUser :=
  { id := 1, uuid := "uuid-1", email := "a@b.c", secret_path := "oldpath",
    level := 0, enabled := 1, notes := "" }

/-- C2 (counterexample): the registry's update operation does NOT ignore
secret_path.  The allowed_fields list of Database.update_user contains
secret_path, so passing it among the update fields rewrites the stored
secret_path (here from oldpath to newpath) and the operation reports
success. -/
theorem update_secret_path_applied_counterexample :
    (db_update_user [sampleDbUser] "uuid-1"
        [("secret_path", SqlValue.text "newpath")]).1
      = [{ sampleDbUser with secret_path := "newpath" }]
    ∧ ({ sampleDbUser with secret_path := "newpath" } : DbUser).secret_path
        ≠ sampleDbUser.secret_path
    ∧ (db_update_user [sampleDbUser] "uuid-1"
        [("secret_path", SqlValue.text "newpath")]).2 = true := by
  exact ⟨rfl, by decide, rfl⟩

/-- Mapping a field extractor over the table after a registry update is
unchanged whenever the folded SET assignments preserve that field. -/
theorem db_update_user_map_field {B : Type} (tbl : List DbUser)
    (user_uuid : String) (kwargs : List (String × SqlValue)) (f : DbUser → B)
    (hf : ∀ u : DbUser,
      f ((kwargs.filter fun kv => allowed_fields.contains kv.1).foldl
          applyField u) = f u) :
    ((db_update_user tbl user_uuid kwargs).1).map f = tbl.map f := by
  by_cases hc : ((kwargs.filter fun kv => allowed_fields.contains kv.1).isEmpty)
  · simp only [db_update_user]
    rw [if_pos hc]
  · simp only [db_update_user]
    rw [if_neg hc]
    show (tbl.map fun u => if u.uuid == user_uuid then
        (kwargs.filter fun kv => allowed_fields.contains kv.1).foldl
          applyField u
      else u).map f = tbl.map f
    rw [List.map_map]
    apply List.map_congr_left
    intro u _
    by_cases huu : u.uuid == user_uuid
    · simp only [Function.comp_apply]
      rw [if_pos huu]
      exact hf u
    · simp only [Function.comp_apply]
      rw [if_neg huu]

/-- C2 (amended): the registry's update operation never changes uuid for
any supplied update fields (uuid is not an allowed field), but secret_path
and level are allowed fields of Database.update_user and are applied when
passed directly; the HTTP update endpoint builds its update dict from
email, enabled and notes only, so an update made through the
administrative surface leaves uuid, secret_path and level of every row
unchanged. -/
theorem registry_update_field_protection (tbl : List DbUser)
    (user_uuid : String) (kwargs : List (String × SqlValue))
    (e : Option String) (b : Option Bool) (n : Option String) :
    ((db_update_user tbl user_uuid kwargs).1).map DbUser.uuid
        = tbl.map DbUser.uuid
    ∧ ((db_update_user tbl user_uuid (buildUpdateFields e b n)).1).map
          DbUser.secret_path
        = tbl.map DbUser.secret_path
    ∧ ((db_update_user tbl user_uuid (buildUpdateFields e b n)).1).map
          DbUser.level
        = tbl.map DbUser.level := by
  have hkeysSecret : ∀ kv ∈ ((buildUpdateFields e b n).filter fun kv =>
      allowed_fields.contains kv.1), kv.1 ≠ "secret_path" := by
    intro kv hkv
    rcases buildUpdateFields_keys e b n kv (List.mem_of_mem_filter hkv)
      with h | h | h <;> rw [h] <;> decide
  have hkeysLevel : ∀ kv ∈ ((buildUpdateFields e b n).filter fun kv =>
      allowed_fields.contains kv.1), kv.1 ≠ "level" := by
    intro kv hkv
    rcases buildUpdateFields_keys e b n kv (List.mem_of_mem_filter hkv)
      with h | h | h <;> rw [h] <;> decide
  refine ⟨?_, ?_, ?_⟩
  · exact db_update_user_map_field tbl user_uuid kwargs DbUser.uuid
      (fun u => foldl_applyField_uuid _ u)
  · exact db_update_user_map_field tbl user_uuid (buildUpdateFields e b n)
      DbUser.secret_path (fun u => foldl_keep_secret_path _ u hkeysSecret)
  · exact db_update_user_map_field tbl user_uuid (buildUpdateFields e b n)
      DbUser.level (fun u => foldl_keep_level _ u hkeysLevel)

/-- C6: a single-range request with 0 ≤ start ≤ end < file_size on the
segment path gets partial-content status 206, a Content-Range header of
exactly the form bytes start-end/file_size, a Content-Length of
end - start + 1, and a body that is exactly the requested byte window of
the backing file, streamed in chunks of at most the fixed 64 KiB chunk
size. -/
theorem range_request_exact (file : List Nat) (s e : Nat)
    (h1 : s ≤ e) (h2 : e < file.length) :
    (serve_video_segment (some file) (some (some s, some e))).status = 206
    ∧ ("Content-Range",
        "bytes " ++ toString s ++ "-" ++ toString e ++ "/"
          ++ toString file.length)
        ∈ (serve_video_segment (some file) (some (some s, some e))).headers
    ∧ ("Content-Length", toString (e - s + 1))
        ∈ (serve_video_segment (some file) (some (some s, some e))).headers
    ∧ (serve_video_segment (some file) (some (some s, some e))).chunks.join
        = (file.drop s).take (e - s + 1)
    ∧ ((serve_video_segment (some file)
          (some (some s, some e))).chunks.join).length = e - s + 1
    ∧ ∀ c ∈ (serve_video_segment (some file) (some (some s, some e))).chunks,
        c.length ≤ chunkSize := by
  refine ⟨rfl, ?_, ?_, ?_, ?_, ?_⟩
  · simp [serve_video_segment]
  · simp [serve_video_segment]
  · show (iterfile file s (e - s + 1)).join = _
    exact iterfile_join file (e - s + 1) s
  · show ((iterfile file s (e - s + 1)).join).length = _
    rw [iterfile_join, List.length_take, List.length_drop]
    omega
  · intro c hc
    exact iterfile_chunk_le file _ _ c hc

/-- Witness for C6: bytes 0 to 99 of a 1000-byte file give status 206,
Content-Range bytes 0-99/1000 and a body of exactly 100 bytes. -/
theorem range_request_exact_witness :
    (0 : Nat) ≤ 99
    ∧ 99 < (List.replicate 1000 (0 : Nat)).length
    ∧ ((serve_video_segment (some (List.replicate 1000 (0 : Nat)))
          (some (some 0, some 99))).status = 206
      ∧ ("Content-Range",
          "bytes " ++ toString (0 : Nat) ++ "-" ++ toString (99 : Nat) ++ "/"
            ++ toString (List.replicate 1000 (0 : Nat)).length)
          ∈ (serve_video_segment (some (List.replicate 1000 (0 : Nat)))
              (some (some 0, some 99))).headers
      ∧ ("Content-Length", toString (99 - 0 + 1))
          ∈ (serve_video_segment (some (List.replicate 1000 (0 : Nat)))
              (some (some 0, some 99))).headers
      ∧ (serve_video_segment (some (List.replicate 1000 (0 : Nat)))
            (some (some 0, some 99))).chunks.join
          = ((List.replicate 1000 (0 : Nat)).drop 0).take (99 - 0 + 1)
      ∧ ((serve_video_segment (some (List.replicate 1000 (0 : Nat)))
            (some (some 0, some 99))).chunks.join).length = 99 - 0 + 1
      ∧ ∀ c ∈ (serve_video_segment (some (List.replicate 1000 (0 : Nat)))
            (some (some 0, some 99))).chunks, c.length ≤ chunkSize) := by
  refine ⟨by norm_num, by norm_num, ?_⟩
  exact range_request_exact (List.replicate 1000 0) 0 99 (by norm_num)
    (by norm_num)

/-- C10: a range request whose end is at or beyond the file size does not
fail: the handler still answers 206, advertises Content-Range up to the
requested end and Content-Length of end - start + 1, but streams only the
bytes from start to end of file, so the body can be shorter than the
advertised length. -/
theorem range_request_overrun (file : List Nat) (s e : Nat)
    (h1 : s ≤ e) (h2 : file.length ≤ e) :
    (serve_video_segment (some file) (some (some s, some e))).status = 206
    ∧ ("Content-Range",
        "bytes " ++ toString s ++ "-" ++ toString e ++ "/"
          ++ toString file.length)
        ∈ (serve_video_segment (some file) (some (some s, some e))).headers
    ∧ ("Content-Length", toString (e - s + 1))
        ∈ (serve_video_segment (some file) (some (some s, some e))).headers
    ∧ (serve_video_segment (some file) (some (some s, some e))).chunks.join
        = file.drop s
    ∧ ((serve_video_segment (some file)
          (some (some s, some e))).chunks.join).length = file.length - s
    ∧ file.length - s ≤ e - s + 1 := by
  refine ⟨rfl, ?_, ?_, ?_, ?_, by omega⟩
  · simp [serve_video_segment]
  · simp [serve_video_segment]
  · show (iterfile file s (e - s + 1)).join = _
    rw [iterfile_join]
    exact List.take_of_length_le (by rw [List.length_drop]; omega)
  · show ((iterfile file s (e - s + 1)).join).length = _
    rw [iterfile_join, List.length_take, List.length_drop]
    omega

/-- Witness for C10: requesting bytes 0 to 99 of a 10-byte file yields a
206 with an advertised length of 100 but a streamed body of 10 bytes. -/
theorem range_request_overrun_witness :
    (0 : Nat) ≤ 99
    ∧ (List.replicate 10 (0 : Nat)).length ≤ 99
    ∧ ((serve_video_segment (some (List.replicate 10 (0 : Nat)))
          (some (some 0, some 99))).status = 206
      ∧ ("Content-Range",
          "bytes " ++ toString (0 : Nat) ++ "-" ++ toString (99 : Nat) ++ "/"
            ++ toString (List.replicate 10 (0 : Nat)).length)
          ∈ (serve_video_segment (some (List.replicate 10 (0 : Nat)))
              (some (some 0, some 99))).headers
      ∧ ("Content-Length", toString (99 - 0 + 1))
          ∈ (serve_video_segment (some (List.replicate 10 (0 : Nat)))
              (some (some 0, some 99))).headers
      ∧ (serve_video_segment (some (List.replicate 10 (0 : Nat)))
            (some (some 0, some 99))).chunks.join
          = (List.replicate 10 (0 : Nat)).drop 0
      ∧ ((serve_video_segment (some (List.replicate 10 (0 : Nat)))
            (some (some 0, some 99))).chunks.join).length
          = (List.replicate 10 (0 : Nat)).length - 0
      ∧ (List.replicate 10 (0 : Nat)).length - 0 ≤ 99 - 0 + 1) := by
  refine ⟨by norm_num, by norm_num, ?_⟩
  exact range_request_overrun (List.replicate 10 0) 0 99 (by norm_num)
    (by norm_num)

/-- C7 (counterexample): not every response on the segment path carries
the cache-disabling headers.  When the backing media file is absent, the
handler returns a bare 404 response whose header list is empty, so the
Cache-Control header is missing on that error response. -/
theorem media_missing_file_no_cache_headers :
    (serve_video_segment none (some (some 0, some 99))).status = 404
    ∧ (serve_video_segment none (some (some 0, some 99))).headers = []
    ∧ ("Cache-Control", "no-cache, no-store, must-revalidate")
        ∉ (serve_video_segment none (some (some 0, some 99))).headers := by
  exact ⟨rfl, rfl, by simp [serve_video_segment]⟩

/-- C7 (amended): whenever the backing media file exists, every response
on the segment path — with a range header or without one — carries the
cache-disabling headers (Cache-Control no-cache/no-store/must-revalidate,
Pragma no-cache, Expires 0); the 404 returned when the file is missing
carries none of them. -/
theorem media_cache_headers (file : List Nat)
    (range : Option (Option Nat × Option Nat)) :
    ("Cache-Control", "no-cache, no-store, must-revalidate")
        ∈ (serve_video_segment (some file) range).headers
    ∧ ("Pragma", "no-cache") ∈ (serve_video_segment (some file) range).headers
    ∧ ("Expires", "0") ∈ (serve_video_segment (some file) range).headers := by
  rcases range with _ | se <;> simp [serve_video_segment]

/-- C8: a request to the fixed disguise path whose Accept header contains
text/event-stream opens the event stream; the generator never halts on its
own (its loop body is an unconditional yield) and every emitted event —
the first in particular — is preceded by a wait of at least 1 and at most
300 time units; the same path requested without that header produces
exactly the response of the root path, whatever the state of the static
document. -/
theorem decoy_stream_behavior (o : RandomOracle) (msgs : List String)
    (clock k : Nat) (acceptSse acceptPlain : String) (ex : Bool)
    (hs : pyContains "text/event-stream" acceptSse = true)
    (hp : pyContains "text/event-stream" acceptPlain = false) :
    unified_decoy_endpoint DECOY_PATH acceptSse ex = DecoyResponse.eventStream
    ∧ generateChatEvents o msgs clock k ≠ GenStep.halt
    ∧ 1 ≤ waitOf (generateChatEvents o msgs clock k)
    ∧ waitOf (generateChatEvents o msgs clock k) ≤ 300
    ∧ unified_decoy_endpoint DECOY_PATH acceptPlain ex
        = unified_decoy_endpoint "" acceptPlain ex := by
  have h0 : (DECOY_PATH == "") = false := by decide
  refine ⟨?_, ?_, ?_, ?_, ?_⟩
  · simp [unified_decoy_endpoint, h0, hs]
  · simp [generateChatEvents]
  · simp [generateChatEvents, waitOf, randint]
  · simp only [generateChatEvents, waitOf, randint]
    have h300 : (o.waitChoice k) % (300 - 1 + 1) < 300 - 1 + 1 :=
      Nat.mod_lt _ (by norm_num)
    omega
  · simp [unified_decoy_endpoint, h0, hp]

/-- A fixed oracle for concrete evaluation of the event generator. -/
def zeroOracle : RandomOracle :=
  { waitChoice := fun _ => 0, userChoice := fun _ => 0, msgChoice := fun _ => 0 }

/-- Witness for C8 at concrete headers: an event-stream Accept opens the
stream, the first wait lies between 1 and 300, and a plain Accept gets the
root response. -/
theorem decoy_stream_behavior_witness :
    pyContains "text/event-stream" "text/event-stream" = true
    ∧ pyContains "text/event-stream" "text/html" = false
    ∧ (unified_decoy_endpoint DECOY_PATH "text/event-stream" true
        = DecoyResponse.eventStream
      ∧ generateChatEvents zeroOracle defaultChatMessages 0 0 ≠ GenStep.halt
      ∧ 1 ≤ waitOf (generateChatEvents zeroOracle defaultChatMessages 0 0)
      ∧ waitOf (generateChatEvents zeroOracle defaultChatMessages 0 0) ≤ 300
      ∧ unified_decoy_endpoint DECOY_PATH "text/html" true
          = unified_decoy_endpoint "" "text/html" true) := by
  refine ⟨by decide, by decide, ?_⟩
  exact decoy_stream_behavior zeroOracle defaultChatMessages 0 0
    "text/event-stream" "text/html" true (by decide) (by decide)

/-- C9: the device-access record operation is an upsert on the natural key
(user_id, user_agent, source_ip): with the key absent it inserts one row
with access_count 1 and first_seen_at = last_seen_at = now; with the key
present it increments access_count, refreshes last_seen_at and overwrites
accessed_path on the matching row while touching nothing else; recording
twice for the same key takes access_count from 1 to 2, refreshes
last_seen_at and leaves first_seen_at at the first recording time. -/
theorem record_device_access_upsert (tbl tbl2 : List DeviceRow) (uid : Nat)
    (ua ip p1 p2 : String) (t1 t2 : Nat)
    (habs : hasKey tbl uid ua ip = false)
    (hpres : hasKey tbl2 uid ua ip = true) :
    record_device_access tbl uid ua ip p1 t1
        = tbl ++ [freshDeviceRow uid ua ip p1 t1]
    ∧ record_device_access tbl2 uid ua ip p2 t2
        = tbl2.map (fun r => if keyMatches r uid ua ip then
            { r with last_seen_at := t2, access_count := r.access_count + 1,
                     accessed_path := p2 } else r)
    ∧ record_device_access (record_device_access tbl uid ua ip p1 t1)
          uid ua ip p2 t2
        = tbl ++ [{ user_id := uid, user_agent := ua, source_ip := ip,
                    accessed_path := p2, first_seen_at := t1,
                    last_seen_at := t2, access_count := 2 }] := by
  have h1 : record_device_access tbl uid ua ip p1 t1
      = tbl ++ [freshDeviceRow uid ua ip p1 t1] := by
    simp [record_device_access, habs]
  have hnomatch : ∀ r ∈ tbl, keyMatches r uid ua ip = false := by
    intro r hr
    by_contra hcon
    have hmem : hasKey tbl uid ua ip = true :=
      List.any_eq_true.mpr ⟨r, hr, by simpa using hcon⟩
    rw [habs] at hmem
    exact Bool.false_ne_true hmem
  refine ⟨h1, by simp [record_device_access, hpres], ?_⟩
  rw [h1]
  have hfresh : keyMatches (freshDeviceRow uid ua ip p1 t1) uid ua ip = true := by
    simp [keyMatches, freshDeviceRow]
  have h2 : hasKey (tbl ++ [freshDeviceRow uid ua ip p1 t1]) uid ua ip = true := by
    simp [hasKey, List.any_append]
    exact Or.inr (by simpa using hfresh)
  simp only [record_device_access, h2, if_true]
  rw [List.map_append]
  congr 1
  · calc tbl.map (fun r => if keyMatches r uid ua ip then
          { r with last_seen_at := t2, access_count := r.access_count + 1,
                   accessed_path := p2 } else r)
        = tbl.map id := by
          apply List.map_congr_left
          intro r hr
          simp [hnomatch r hr]
      _ = tbl := List.map_id tbl
  · simp [keyMatches, freshDeviceRow]

/-- Witness for C9: starting from an empty log, two recordings for the
same key at times 10 then 20 leave one row with access_count 2,
first_seen_at 10 and last_seen_at 20. -/
theorem record_device_access_upsert_witness :
    hasKey [] 1 "Mozilla" "10.0.0.9" = false
    ∧ hasKey [freshDeviceRow 1 "Mozilla" "10.0.0.9" "/p" 5] 1 "Mozilla" "10.0.0.9"
        = true
    ∧ (record_device_access [] 1 "Mozilla" "10.0.0.9" "/a" 10
        = [] ++ [freshDeviceRow 1 "Mozilla" "10.0.0.9" "/a" 10]
      ∧ record_device_access [freshDeviceRow 1 "Mozilla" "10.0.0.9" "/p" 5]
            1 "Mozilla" "10.0.0.9" "/b" 20
        = [freshDeviceRow 1 "Mozilla" "10.0.0.9" "/p" 5].map
            (fun r => if keyMatches r 1 "Mozilla" "10.0.0.9" then
              { r with last_seen_at := 20, access_count := r.access_count + 1,
                       accessed_path := "/b" } else r)
      ∧ record_device_access
            (record_device_access [] 1 "Mozilla" "10.0.0.9" "/a" 10)
            1 "Mozilla" "10.0.0.9" "/b" 20
        = [] ++ [{ user_id := 1, user_agent := "Mozilla",
                   source_ip := "10.0.0.9", accessed_path := "/b",
                   first_seen_at := 10, last_seen_at := 20,
                   access_count := 2 }]) := by
  refine ⟨by decide, by decide, ?_⟩
  exact record_device_access_upsert []
    [freshDeviceRow 1 "Mozilla" "10.0.0.9" "/p" 5] 1 "Mozilla" "10.0.0.9"
    "/a" "/b" 10 20 (by decide) (by decide)

end AvalonTunnel
